import Mathlib

/-!
Verification of the order-service financial-correctness and input-hardening
layer (`app/core/validators.py`, `app/models/order.py`,
`app/services/order_service.py`, `app/services/analytics_service.py`).

Python `Decimal` values are modelled by `PyDecimal` (sign, coefficient,
exponent — the `as_tuple()` representation restricted to finite decimals);
their numeric value is interpreted in `ℚ`, over which every comparison and
arithmetic operation performed by this code is exact.
-/

namespace OrderService

instance {ε α : Type} [DecidableEq ε] [DecidableEq α] : DecidableEq (Except ε α) := fun x y =>
  match x, y with
  | .ok a, .ok b =>
      if h : a = b then .isTrue (by rw [h]) else .isFalse (by intro hc; cases hc; exact h rfl)
  | .ok _, .error _ => .isFalse (by intro hc; cases hc)
  | .error _, .ok _ => .isFalse (by intro hc; cases hc)
  | .error e, .error f =>
      if h : e = f then .isTrue (by rw [h]) else .isFalse (by intro hc; cases hc; exact h rfl)

/-- A finite Python `Decimal`: value `(-1)^sign * coeff * 10^exp`.
`coeff` is the coefficient read off `as_tuple().digits` (no leading zeros,
`0` for zero), `exp` the `as_tuple().exponent`. -/
structure PyDecimal where
  sign : Bool
  coeff : Nat
  exp : Int
deriving DecidableEq, Repr

/-- Numeric value of a `PyDecimal`, in `ℚ`. -/
def val (d : PyDecimal) : ℚ :=
  (if d.sign then -1 else 1) * (d.coeff : ℚ) * (10 : ℚ) ^ d.exp

/-- Fuel-driven base-10 digit counter (the fuel argument only forces
structural termination; `numDigits` always supplies enough). -/
def digitsGo : Nat → Nat → Nat
  | 0, _ => 1
  | fuel + 1, n => if n < 10 then 1 else digitsGo fuel (n / 10) + 1

/-- Number of digits of `as_tuple().digits`: decimal digit count of the
coefficient, with `0` contributing one digit. -/
def numDigits (n : Nat) : Nat := digitsGo n n

/-- Constant `DecimalValidator.MAX_TOTAL_DIGITS`. -/
def MAX_TOTAL_DIGITS : Nat := 15

/-- Constant `DecimalValidator.MAX_DECIMAL_PLACES`. -/
def MAX_DECIMAL_PLACES : Nat := 2

/-- Constant `DecimalValidator.MAX_AMOUNT = Decimal("9999999999.99")`. -/
def MAX_AMOUNT : PyDecimal := ⟨false, 999999999999, -2⟩

/-- Constant `DecimalValidator.MIN_AMOUNT = Decimal("0.00")`. -/
def MIN_AMOUNT : PyDecimal := ⟨false, 0, -2⟩

/-- Round `n / m` to the nearest integer, ties to even
(`decimal.ROUND_HALF_EVEN` applied to the magnitude). -/
def roundHalfEvenDiv (n m : Nat) : Nat :=
  let q := n / m
  let r := n % m
  if 2 * r < m then q
  else if m < 2 * r then q + 1
  else if q % 2 = 0 then q else q + 1

/-- Quantization `amount.quantize(Decimal("0.01"))`: rescale to exponent `-2`; when the
input exponent is below `-2` the coefficient is rounded half-to-even. -/
def quantize2 (d : PyDecimal) : PyDecimal :=
  if -2 ≤ d.exp then
    ⟨d.sign, d.coeff * 10 ^ (d.exp + 2).toNat, -2⟩
  else
    ⟨d.sign, roundHalfEvenDiv d.coeff (10 ^ (-2 - d.exp).toNat), -2⟩

/-- The `ValueError`s raised by `DecimalValidator.validate_financial_amount`,
with the values interpolated into each f-string carried structurally:
`mustBePositive f` is `f"{f} must be greater than 0"`,
`cannotBeNegative f` is `f"{f} cannot be negative"`,
`exceedsMax f m` is `f"{f} cannot exceed {m}"`,
`tooManyDecimalPlaces f n` is `f"{f} cannot have more than {n} decimal places"`,
`tooManyDigits f n` is `f"{f} cannot have more than {n} total digits"`. -/
inductive AmountError
  | mustBePositive (field : String)
  | cannotBeNegative (field : String)
  | exceedsMax (field : String) (maxVal : PyDecimal)
  | tooManyDecimalPlaces (field : String) (limit : Nat)
  | tooManyDigits (field : String) (limit : Nat)
deriving DecidableEq, Repr

/-- Validator `DecimalValidator.validate_financial_amount`.  The input here is already
a finite `Decimal`, so the type-coercion branch (lines 104-110) and the
NaN/infinity check (line 113) do not fire; Decimal comparisons are by
numeric value.  Checks run in source order: sign, maximum, decimal places
(on the input's exponent, before any normalization), total digits; on
success the amount is returned quantized to two decimal places. -/
def validate_financial_amount (amount : PyDecimal) (field_name : String)
    (allow_zero : Bool) (max_amount : Option PyDecimal) :
    Except AmountError PyDecimal :=
  if allow_zero = false ∧ val amount ≤ val MIN_AMOUNT then
    .error (.mustBePositive field_name)
  else if val amount < val MIN_AMOUNT then
    .error (.cannotBeNegative field_name)
  else
    let max_val := max_amount.getD MAX_AMOUNT
    if val max_val < val amount then
      .error (.exceedsMax field_name max_val)
    else if amount.exp < 0 ∧ MAX_DECIMAL_PLACES < amount.exp.natAbs then
      .error (.tooManyDecimalPlaces field_name MAX_DECIMAL_PLACES)
    else if MAX_TOTAL_DIGITS < numDigits amount.coeff then
      .error (.tooManyDigits field_name MAX_TOTAL_DIGITS)
    else
      .ok (quantize2 amount)

/-- Validator `DecimalValidator.validate_quantity`: the `isinstance(quantity, int)`
check is inherent in the `Int` argument type; bounds are checked in source
order with the source's error messages. -/
def validate_quantity (quantity : Int) (field_name : String) : Except String Int :=
  if quantity < 1 then .error (field_name ++ " must be at least 1")
  else if 10000 < quantity then .error (field_name ++ " cannot exceed 10,000")
  else .ok quantity

/-- A value representable with at most 2 fractional digits (the pydantic
`decimal_places=2` constraint, on values: the denominator divides 100). -/
def twoDP (v : ℚ) : Prop := 100 % v.den = 0

instance (v : ℚ) : Decidable (twoDP v) := by unfold twoDP; infer_instance

/-- Model `OrderItem` from `app/models/order.py`. -/
structure OrderItem where
  product_id : String
  product_name : String
  quantity : Int
  unit_price : ℚ
  total_price : ℚ
deriving DecidableEq

/-- Construction of an `OrderItem`: pydantic validates fields in declaration
order — `product_id` (`min_length=1`), `product_name` (1..255 chars),
`quantity` (`ge=1, le=1000`), `unit_price` (`ge=0, decimal_places=2`),
`total_price` (`ge=0, decimal_places=2`), then the `total_price` validator
requires exact equality `total_price == quantity * unit_price`.  The model
short-circuits at the first failing check; construction succeeds iff no
check fails, which matches pydantic's error collection. -/
def mkOrderItem (product_id product_name : String) (quantity : Int)
    (unit_price total_price : ℚ) : Except String OrderItem :=
  if product_id.length < 1 then
    .error ("product_id: ensure this value has at least 1 characters")
  else if product_name.length < 1 ∨ 255 < product_name.length then
    .error ("product_name: length must be between 1 and 255")
  else if quantity < 1 then
    .error ("quantity: ensure this value is greater than or equal to 1")
  else if 1000 < quantity then
    .error ("quantity: ensure this value is less than or equal to 1000")
  else if unit_price < 0 ∨ ¬ twoDP unit_price then
    .error ("unit_price: invalid decimal")
  else if total_price < 0 ∨ ¬ twoDP total_price then
    .error ("total_price: invalid decimal")
  else if total_price ≠ (quantity : ℚ) * unit_price then
    .error ("Total price must equal quantity * unit_price")
  else .ok ⟨product_id, product_name, quantity, unit_price, total_price⟩

/-- Some order line item (any product fields and prices) accepts quantity
`q`. -/
def canConstructWithQuantity (q : Int) : Prop :=
  ∃ pid pname up tp, (mkOrderItem pid pname q up tp).isOk = true

/-- The pydantic `ge=0, decimal_places=2` constraint on a money field of
`Order`. -/
def moneyOk (v : ℚ) : Prop := 0 ≤ v ∧ twoDP v

instance (v : ℚ) : Decidable (moneyOk v) := by unfold moneyOk; infer_instance

/-- The `ValueError`s raised while validating the totals fields of `Order`
(`app/models/order.py` lines 101-122), the interpolated values carried
structurally: `subtotalMismatch v c` is
`f"Subtotal {v} does not match sum of items {c}"`, `totalMismatch v c` is
`f"Total amount {v} does not match calculated total {c}"`, `fieldInvalid f`
stands for a pydantic per-field constraint failure on field `f`. -/
inductive TotalsError
  | fieldInvalid (field : String)
  | subtotalMismatch (supplied computed : ℚ)
  | totalMismatch (supplied computed : ℚ)
deriving DecidableEq

/-- The totals-related state of an `Order`: line-item `total_price` values
and the five money fields. -/
structure OrderTotals where
  items : List ℚ
  subtotal : ℚ
  tax_amount : ℚ
  shipping_amount : ℚ
  discount_amount : ℚ
  total_amount : ℚ
deriving DecidableEq

/-- The totals-validation gate run when an `Order` is constructed.  Pydantic
validates fields in declaration order: `items` (`min_items=1,
max_items=100`), then `subtotal` (money constraint, then
`validate_subtotal`: `abs(v - sum(item.total_price)) > Decimal("0.01")`
raises), then `tax_amount`, `shipping_amount`, `discount_amount` (money
constraints only), then `total_amount` (money constraint, then
`validate_total_amount`: `abs(v - (subtotal + tax + shipping - discount)) >
Decimal("0.01")` raises).  Decimal arithmetic and comparisons here are
exact, so values are modelled in `ℚ`. -/
def constructOrderTotals (items : List ℚ)
    (subtotal tax_amount shipping_amount discount_amount total_amount : ℚ) :
    Except TotalsError OrderTotals :=
  if items.length < 1 ∨ 100 < items.length then .error (.fieldInvalid "items")
  else if ¬ moneyOk subtotal then .error (.fieldInvalid "subtotal")
  else if 1/100 < |subtotal - items.sum| then
    .error (.subtotalMismatch subtotal items.sum)
  else if ¬ moneyOk tax_amount then .error (.fieldInvalid "tax_amount")
  else if ¬ moneyOk shipping_amount then .error (.fieldInvalid "shipping_amount")
  else if ¬ moneyOk discount_amount then .error (.fieldInvalid "discount_amount")
  else if ¬ moneyOk total_amount then .error (.fieldInvalid "total_amount")
  else if 1/100 < |total_amount - (subtotal + tax_amount + shipping_amount - discount_amount)| then
    .error (.totalMismatch total_amount
      (subtotal + tax_amount + shipping_amount - discount_amount))
  else .ok ⟨items, subtotal, tax_amount, shipping_amount, discount_amount, total_amount⟩

/-- The five totals fields of `Order` that can be reassigned. -/
inductive TotalsField
  | subtotal
  | tax_amount
  | shipping_amount
  | discount_amount
  | total_amount
deriving DecidableEq

/-- Reassigning one totals field of a constructed `Order`
(`Config.validate_assignment = True`): pydantic re-runs only the assigned
field's own constraints and validators, with `values` holding the other
fields' current values.  In particular assigning `tax_amount`,
`shipping_amount` or `discount_amount` re-runs no cross-field check. -/
def assignTotalsField (o : OrderTotals) (f : TotalsField) (v : ℚ) :
    Except TotalsError OrderTotals :=
  match f with
  | .subtotal =>
      if ¬ moneyOk v then .error (.fieldInvalid "subtotal")
      else if 1/100 < |v - o.items.sum| then .error (.subtotalMismatch v o.items.sum)
      else .ok { o with subtotal := v }
  | .tax_amount =>
      if ¬ moneyOk v then .error (.fieldInvalid "tax_amount")
      else .ok { o with tax_amount := v }
  | .shipping_amount =>
      if ¬ moneyOk v then .error (.fieldInvalid "shipping_amount")
      else .ok { o with shipping_amount := v }
  | .discount_amount =>
      if ¬ moneyOk v then .error (.fieldInvalid "discount_amount")
      else .ok { o with discount_amount := v }
  | .total_amount =>
      if ¬ moneyOk v then .error (.fieldInvalid "total_amount")
      else if 1/100 < |v - (o.subtotal + o.tax_amount + o.shipping_amount - o.discount_amount)| then
        .error (.totalMismatch v
          (o.subtotal + o.tax_amount + o.shipping_amount - o.discount_amount))
      else .ok { o with total_amount := v }

/-- Validator `Order.set_partition_key` (`app/models/order.py` lines 94-99): the
validator body — return `values["customer_id"]` when present, else the
supplied value. -/
def set_partition_key (v : String) (values_customer_id : Option String) : String :=
  match values_customer_id with
  | some cid => cid
  | none => v

/-- What validating the `partition_key` field of an `Order` actually
produces.  Pydantic v1 runs field validators in declaration order and
passes in `values` only the already-validated fields; `partition_key`
(line 54) is declared before `customer_id` (line 59), so `customer_id` is
never in `values` when `set_partition_key` runs, and a missing required
`partition_key` fails with `field required` before any validator runs.
The `customer_id` argument is what the order carries; it is unused, which
is exactly the defect. -/
def orderPartitionKey (supplied : Option String) (customer_id : String) :
    Except String String :=
  match supplied with
  | none => .error ("partitionKey: field required")
  | some v => .ok (set_partition_key v none)

/-- Enumeration `OrderStatus` from `app/models/base.py`. -/
inductive OrderStatus
  | pending
  | confirmed
  | processing
  | shipped
  | delivered
  | cancelled
  | refunded
deriving DecidableEq

/-- The string value of each status (`use_enum_values = True`). -/
def OrderStatus.value : OrderStatus → String
  | .pending => "pending"
  | .confirmed => "confirmed"
  | .processing => "processing"
  | .shipped => "shipped"
  | .delivered => "delivered"
  | .cancelled => "cancelled"
  | .refunded => "refunded"

/-- The slice of an `Order` that `OrderService.cancel_order` reads and
writes. -/
structure SvcOrder where
  status : OrderStatus
  updated_at : Option Nat
deriving DecidableEq

/-- Service method `OrderService.cancel_order` (`app/services/order_service.py` lines
162-187) for an order already fetched from the repository (`none` means
the repository returned no order, in which case the service returns
`None`).  The repository `update` returns the updated order; the service's
`except` wrapper re-raises the `ValueError` as
`RuntimeError(f"Failed to cancel order {order_id}: {e}")`. -/
def cancel_order (order_id : String) (existing_order : Option SvcOrder) (now : Nat) :
    Except String (Option SvcOrder) :=
  match existing_order with
  | none => .ok none
  | some o =>
      if o.status = .shipped ∨ o.status = .delivered then
        .error ("Failed to cancel order " ++ order_id ++
          ": Cannot cancel order in status: " ++ o.status.value)
      else
        .ok (some { o with status := .cancelled, updated_at := some now })

/-- Python `\s` on the characters these inputs contain (ASCII whitespace). -/
def pyIsSpace (c : Char) : Bool :=
  c == ' ' || c == '\t' || c == '\n' || c == '\r' || c == '\x0b' || c == '\x0c'

/-- Python `\w` (ASCII word characters). -/
def isWordChar (c : Char) : Bool := c.isAlphanum || c == '_'

/-- Match a literal pattern case-insensitively (`re.IGNORECASE`; the
pattern is given lowercase); returns the rest of the input on success. -/
def matchCI : List Char → List Char → Option (List Char)
  | [], s => some s
  | _ :: _, [] => none
  | p :: ps, c :: cs => if c.toLower == p then matchCI ps cs else none

/-- Consume `[^>]*>`: greedy `[^>]*` runs to the first `>`, which is then
consumed; no match if the input has no `>`. -/
def skipToGt : List Char → Option (List Char)
  | [] => none
  | c :: rest => if c == '>' then some rest else skipToGt rest

/-- Match `</script\s*>` at the head of the input: greedy `\s*` followed by
`>` succeeds exactly when the maximal whitespace run is followed by `>`. -/
def matchCloseScript (s : List Char) : Option (List Char) :=
  match matchCI ['<', '/', 's', 'c', 'r', 'i', 'p', 't'] s with
  | none => none
  | some r =>
      match r.dropWhile pyIsSpace with
      | '>' :: r2 => some r2
      | _ => none

/-- Lazy `.*?</script\s*>` (with `re.DOTALL`): the earliest position where
the closing tag matches. -/
def findCloseScript : List Char → Option (List Char)
  | [] => none
  | c :: rest =>
      match matchCloseScript (c :: rest) with
      | some r => some r
      | none => findCloseScript rest

/-- Match `SCRIPT_PATTERN = <script[^>]*>.*?</script\s*>` at the head of
the input; returns the rest after the match. -/
def matchScriptAt (s : List Char) : Option (List Char) :=
  match matchCI ['<', 's', 'c', 'r', 'i', 'p', 't'] s with
  | none => none
  | some r1 =>
      match skipToGt r1 with
      | none => none
      | some r2 => findCloseScript r2

/-- Match `JAVASCRIPT_PATTERN = javascript:|on\w+\s*=` at the head of the
input.  For the second alternative, greedy `\w+` then greedy `\s*` then `=`
succeeds exactly when the maximal word run (non-empty) followed by the
maximal whitespace run is followed by `=` (shorter runs put a word or
whitespace character where `=` must match). -/
def matchJsAt (s : List Char) : Option (List Char) :=
  match matchCI ['j', 'a', 'v', 'a', 's', 'c', 'r', 'i', 'p', 't', ':'] s with
  | some r => some r
  | none =>
      match matchCI ['o', 'n'] s with
      | none => none
      | some r1 =>
          if (r1.takeWhile isWordChar).isEmpty then none
          else
            match (r1.dropWhile isWordChar).dropWhile pyIsSpace with
            | '=' :: r3 => some r3
            | _ => none

/-- Match `TAG_PATTERN = <[^>]+>` at the head of the input: `<`, at least
one non-`>` character, then everything up to and including the first `>`. -/
def matchTagAt : List Char → Option (List Char)
  | '<' :: c :: rest => if c == '>' then none else skipToGt (c :: rest)
  | _ => none

/-- Substitution `re.sub(pattern, "", text)`: scan left to right; at each position
either remove a match and continue after it, or keep the character.  The
fuel argument only forces structural termination: every matcher above
consumes at least one character, so fuel `s.length` (as supplied by
`pyReSub`) never runs out. -/
def reSub (m : List Char → Option (List Char)) : Nat → List Char → List Char
  | _, [] => []
  | 0, s => s
  | fuel + 1, c :: rest =>
      match m (c :: rest) with
      | some r => reSub m fuel r
      | none => c :: reSub m fuel rest

/-- Substitution `pattern.sub("", s)`. -/
def pyReSub (m : List Char → Option (List Char)) (s : List Char) : List Char :=
  reSub m s.length s

/-- One character's expansion under `html.escape(text, quote=True)`. -/
def escapeChar (c : Char) : List Char :=
  if c == '&' then ['&', 'a', 'm', 'p', ';']
  else if c == '<' then ['&', 'l', 't', ';']
  else if c == '>' then ['&', 'g', 't', ';']
  else if c == '"' then ['&', 'q', 'u', 'o', 't', ';']
  else if c == '\'' then ['&', '#', 'x', '2', '7', ';']
  else [c]

/-- Escaping `html.escape(text, quote=True)`: the sequential `str.replace` calls
(`&` first) amount to this character-wise expansion. -/
def html_escape : List Char → List Char
  | [] => []
  | c :: rest => escapeChar c ++ html_escape rest

/-- Trimming `str.strip()` (ASCII whitespace, which covers these inputs). -/
def pyStrip (s : List Char) : List Char :=
  ((s.dropWhile pyIsSpace).reverse.dropWhile pyIsSpace).reverse

/-- Truncation `if max_length and len(text) > max_length: text = text[:max_length]` —
note `0` and `None` are both falsy, so neither truncates. -/
def truncateMax (s : List Char) (max_length : Option Nat) : List Char :=
  match max_length with
  | none => s
  | some m => if m ≠ 0 ∧ m < s.length then s.take m else s

/-- Sanitizer `InputSanitizer.sanitize_text` on a non-`None` input: remove script
tags, then `javascript:`/event-handler patterns, then HTML tags, then
escape HTML entities, trim whitespace, and enforce the maximum length. -/
def sanitize_text (text : List Char) (max_length : Option Nat) : List Char :=
  truncateMax
    (pyStrip (html_escape
      (pyReSub matchTagAt (pyReSub matchJsAt (pyReSub matchScriptAt text)))))
    max_length

/-- Model `DailyOrderMetrics` from `app/models/analytics.py` (dates as day ordinals). -/
structure DailyOrderMetrics where
  date : Nat
  order_count : Nat
  total_revenue : ℚ
  average_order_value : ℚ
  currency : String
deriving DecidableEq

/-- The zero metric synthesized for a missing day. -/
def zeroMetric (d : Nat) : DailyOrderMetrics :=
  ⟨d, 0, 0, 0, "USD"⟩

/-- Dict `{metric.date: metric for metric in daily_metrics}` looked up at `d`:
a later row with the same date overwrites an earlier one. -/
def metricsByDate (rows : List DailyOrderMetrics) (d : Nat) :
    Option DailyOrderMetrics :=
  rows.foldl (fun acc m => if m.date = d then some m else acc) none

/-- The record the loop body appends for day `d`. -/
def dayRecord (rows : List DailyOrderMetrics) (d : Nat) : DailyOrderMetrics :=
  match metricsByDate rows d with
  | some m => m
  | none => zeroMetric d

/-- Service method `AnalyticsService._fill_missing_days` (`app/services/analytics_service.py`
lines 29-56): walk the days from `current` to `endD` inclusive, taking the
existing metric for a day when the dict has one and a zero metric
otherwise. -/
def fill_missing_days (rows : List DailyOrderMetrics) (current endD : Nat) :
    List DailyOrderMetrics :=
  if current ≤ endD then
    dayRecord rows current :: fill_missing_days rows (current + 1) endD
  else []
termination_by endD + 1 - current

/-- Round to the nearest integer, ties to even (Python's `round`). -/
def roundHalfEvenInt (q : ℚ) : ℤ :=
  if q - ⌊q⌋ < 1/2 then ⌊q⌋
  else if 1/2 < q - ⌊q⌋ then ⌊q⌋ + 1
  else if ⌊q⌋ % 2 = 0 then ⌊q⌋ else ⌊q⌋ + 1

/-- Rounding `round(x, 2)`: half-even rounding to 2 fractional digits, modelled
exactly over `ℚ` (the Decimal/float values involved in the claims are
exactly representable). -/
def round2 (q : ℚ) : ℚ := (roundHalfEvenInt (q * 100) : ℚ) / 100

/-- Service method `AnalyticsService._calculate_growth_rate` (`analytics_service.py` lines
183-215): `revenue_summary a b` stands for the repository's total revenue
over `[a, b]` (dates as day ordinals, `ℤ` so the previous period may cross
zero).  The previous period has the same length as the current one and ends
the day before it starts. -/
def calculate_growth_rate (revenue_summary : Int → Int → ℚ)
    (start_date end_date : Int) : Option ℚ :=
  let period_length := end_date - start_date + 1
  let previous_end := start_date - 1
  let previous_start := previous_end - (period_length - 1)
  let current_revenue := revenue_summary start_date end_date
  let previous_revenue := revenue_summary previous_start previous_end
  if 0 < previous_revenue then
    some (round2 ((current_revenue - previous_revenue) / previous_revenue * 100))
  else none

/-- A revenue assignment used to exercise `calculate_growth_rate`:
1000.00 in the current period starting at day 1, 800.00 in any other
period. -/
def demoRevenue : Int → Int → ℚ := fun a _ => if a = 1 then 1000 else 800

/-- Per-day rows used to exercise `fill_missing_days`: data only on days 1
and 3. -/
def demoRows : List DailyOrderMetrics :=
  [⟨1, 2, 100, 50, "USD"⟩, ⟨3, 1, 30, 30, "USD"⟩]

lemma digitsGo_eq_log (fuel n : Nat) (h : n ≤ fuel) :
    digitsGo fuel n = Nat.log 10 n + 1 := by
  induction fuel generalizing n with
  | zero =>
      have hn : n = 0 := Nat.le_zero.mp h
      subst hn
      simp [digitsGo]
  | succ f ih =>
      rw [digitsGo]
      by_cases hn : n < 10
      · rw [if_pos hn]
        have : Nat.log 10 n = 0 := Nat.log_eq_zero_iff.mpr (Or.inl hn)
        omega
      · rw [if_neg hn]
        have hdiv : n / 10 ≤ f := by
          have : n / 10 < n := Nat.div_lt_self (by omega) (by omega)
          omega
        rw [ih _ hdiv, Nat.log_div_base]
        have : 0 < Nat.log 10 n := Nat.log_pos (by omega) (by omega)
        omega

lemma numDigits_eq_log (n : Nat) : numDigits n = Nat.log 10 n + 1 :=
  digitsGo_eq_log n n le_rfl

lemma numDigits_le_of_lt {n k : Nat} (hk : 1 ≤ k) (h : n < 10 ^ k) :
    numDigits n ≤ k := by
  rcases eq_or_ne n 0 with rfl | hn
  · rw [numDigits_eq_log, Nat.log_zero_right]
    omega
  · have := Nat.log_lt_of_lt_pow hn h
    rw [numDigits_eq_log]
    omega

lemma val_MIN_AMOUNT : val MIN_AMOUNT = 0 := by
  simp [val, MIN_AMOUNT]

lemma val_MAX_AMOUNT : val MAX_AMOUNT = (999999999999 : ℚ) / 100 := by
  rw [val, MAX_AMOUNT]
  norm_num

lemma zpow_toNat_shift {e : ℤ} (h : -2 ≤ e) :
    (10 : ℚ) ^ ((e + 2).toNat) * (10 : ℚ) ^ (-2 : ℤ) = (10 : ℚ) ^ e := by
  rw [← zpow_natCast (10 : ℚ) (e + 2).toNat, Int.toNat_of_nonneg (by omega),
    ← zpow_add₀ (by norm_num : (10 : ℚ) ≠ 0)]
  congr 1
  omega

lemma val_quantize2 {a : PyDecimal} (h : -2 ≤ a.exp) : val (quantize2 a) = val a := by
  rw [quantize2, if_pos h]
  show (if a.sign then (-1 : ℚ) else 1) * ((a.coeff * 10 ^ (a.exp + 2).toNat : ℕ) : ℚ) *
      (10 : ℚ) ^ (-2 : ℤ) = val a
  rw [val]
  push_cast
  rw [mul_assoc, mul_assoc, zpow_toNat_shift h]
  ring

/-- Claim C2: every finite decimal with at most 2 fractional digits
(exponent at least `-2`), at most 15 significant digits, and value in
`[0, 9999999999.99]` is accepted by `validate_financial_amount` with
`allow_zero=True`, and the returned amount has exponent exactly `-2`
(normalized to 2 fractional digits), the same numeric value, and is a
fixed point of the validator (idempotence). -/
theorem validate_financial_amount_normalizes (a : PyDecimal) (f : String)
    (hexp : -2 ≤ a.exp) (hdig : numDigits a.coeff ≤ MAX_TOTAL_DIGITS)
    (hge : 0 ≤ val a) (hle : val a ≤ val MAX_AMOUNT) :
    ∃ r : PyDecimal,
      validate_financial_amount a f true none = .ok r ∧
      r.exp = -2 ∧ val r = val a ∧
      validate_financial_amount r f true none = .ok r := by
  have hq2 : quantize2 a = ⟨a.sign, a.coeff * 10 ^ (a.exp + 2).toNat, -2⟩ := by
    rw [quantize2, if_pos hexp]
  have hvq : val (quantize2 a) = val a := val_quantize2 hexp
  -- the normalized coefficient is bounded by the maximum amount in cents
  have hcoeff : numDigits (a.coeff * 10 ^ (a.exp + 2).toNat) ≤ MAX_TOTAL_DIGITS := by
    have hppos : (0 : ℚ) < (10 : ℚ) ^ (-2 : ℤ) := by positivity
    by_cases hs : a.sign
    · -- a non-negative value with sign bit set must be zero
      have hz : a.coeff = 0 := by
        by_contra hc
        have : val a < 0 := by
          rw [val, if_pos hs]
          have h1 : (0 : ℚ) < (a.coeff : ℚ) := by
            exact_mod_cast Nat.pos_of_ne_zero hc
          have h2 : (0 : ℚ) < (10 : ℚ) ^ a.exp := by positivity
          nlinarith
        linarith
      rw [hz]
      simp [numDigits, digitsGo, MAX_TOTAL_DIGITS]
    · have hsf : a.sign = false := by simpa using hs
      have hvr : val (quantize2 a) =
          ((a.coeff * 10 ^ (a.exp + 2).toNat : ℕ) : ℚ) * (10 : ℚ) ^ (-2 : ℤ) := by
        rw [hq2, val, hsf]
        norm_num
      have hb : ((a.coeff * 10 ^ (a.exp + 2).toNat : ℕ) : ℚ) ≤ 999999999999 := by
        have h1 : val (quantize2 a) ≤ (999999999999 : ℚ) * (10 : ℚ) ^ (-2 : ℤ) := by
          rw [hvq]
          calc val a ≤ val MAX_AMOUNT := hle
            _ = (999999999999 : ℚ) * (10 : ℚ) ^ (-2 : ℤ) := by
                rw [val_MAX_AMOUNT]; norm_num
        rw [hvr] at h1
        exact le_of_mul_le_mul_right h1 hppos
      have hb' : a.coeff * 10 ^ (a.exp + 2).toNat ≤ 999999999999 := by
        exact_mod_cast hb
      exact numDigits_le_of_lt (by norm_num [MAX_TOTAL_DIGITS])
        (by calc a.coeff * 10 ^ (a.exp + 2).toNat ≤ 999999999999 := hb'
              _ < 10 ^ MAX_TOTAL_DIGITS := by norm_num [MAX_TOTAL_DIGITS])
  refine ⟨quantize2 a, ?_, ?_, hvq, ?_⟩
  · rw [validate_financial_amount]
    rw [if_neg (by simp), if_neg (by rw [val_MIN_AMOUNT]; exact not_lt.mpr hge)]
    simp only [Option.getD_none]
    rw [if_neg (not_lt.mpr hle),
      if_neg (by rintro ⟨h1, h2⟩; rw [MAX_DECIMAL_PLACES] at h2; omega),
      if_neg (not_lt.mpr hdig)]
  · rw [hq2]
  · rw [validate_financial_amount]
    rw [if_neg (by simp), if_neg (by rw [val_MIN_AMOUNT, hvq]; exact not_lt.mpr hge)]
    simp only [Option.getD_none]
    rw [if_neg (by rw [hvq]; exact not_lt.mpr hle)]
    rw [hq2]
    rw [if_neg (by rintro ⟨h1, h2⟩; rw [MAX_DECIMAL_PLACES] at h2; simp at h2),
      if_neg (by exact not_lt.mpr hcoeff)]
    rw [quantize2]
    norm_num

/-- Witness for claim C2 at the decimal `29.9` (coefficient 299, exponent
`-1`): the validator accepts it and normalizes it to two fractional digits. -/
theorem validate_financial_amount_normalizes_witness :
    ∃ r : PyDecimal,
      validate_financial_amount ⟨false, 299, -1⟩ "amount" true none = .ok r ∧
      r.exp = -2 ∧ val r = val ⟨false, 299, -1⟩ ∧
      validate_financial_amount r "amount" true none = .ok r :=
  validate_financial_amount_normalizes ⟨false, 299, -1⟩ "amount"
    (by decide) (by decide)
    (by rw [val]; norm_num)
    (by rw [val, val_MAX_AMOUNT]; norm_num)

/-- Claim C3: a finite decimal with more than 2 fractional digits (exponent
below `-2`) that is non-negative and within the maximum amount is rejected
by `validate_financial_amount` with the decimal-places error (citing the
limit 2); it is never silently rounded. -/
theorem validate_financial_amount_rejects_extra_places (a : PyDecimal) (f : String)
    (hexp : a.exp < -2) (hge : 0 ≤ val a) (hle : val a ≤ val MAX_AMOUNT) :
    validate_financial_amount a f true none =
      .error (.tooManyDecimalPlaces f MAX_DECIMAL_PLACES) := by
  rw [validate_financial_amount]
  rw [if_neg (by simp), if_neg (by rw [val_MIN_AMOUNT]; exact not_lt.mpr hge)]
  simp only [Option.getD_none]
  rw [if_neg (not_lt.mpr hle),
    if_pos (by constructor <;> [omega; (rw [MAX_DECIMAL_PLACES]; omega)])]

/-- Witness for claim C3 at the decimal `29.999` (coefficient 29999,
exponent `-3`): rejected with the decimal-places error, not rounded to
`30.00`. -/
theorem validate_financial_amount_rejects_extra_places_witness :
    validate_financial_amount ⟨false, 29999, -3⟩ "amount" true none =
      .error (.tooManyDecimalPlaces "amount" MAX_DECIMAL_PLACES) :=
  validate_financial_amount_rejects_extra_places ⟨false, 29999, -3⟩ "amount"
    (by decide)
    (by rw [val]; norm_num)
    (by rw [val, val_MAX_AMOUNT]; norm_num)

/-- Claim C4 fails as stated: quantity 1001 passes `validate_quantity`
(whose bound is 10000) and yet no order line item can be constructed with
it, because `OrderItem.quantity` carries `le=1000`. -/
theorem quantity_1001_not_constructible :
    validate_quantity 1001 "quantity" = .ok 1001 ∧
    ¬ canConstructWithQuantity 1001 := by
  constructor
  · rw [validate_quantity, if_neg (by omega), if_neg (by omega)]
  · rintro ⟨pid, pname, up, tp, h⟩
    rw [mkOrderItem] at h
    split_ifs at h <;> first | exact Bool.noConfusion h | omega

/-- Claim C4 (amended): `validate_quantity` accepts exactly the integers
1..10000, returning them unchanged, with the stated error messages below 1
and above 10000; but an order line item accepts a quantity exactly when it
lies in 1..1000 (`OrderItem.quantity` has `le=1000`), so quantities
1001..10000 pass the validator yet cannot be used in a line item. -/
theorem validate_quantity_spec (q : Int) (f : String) :
    (1 ≤ q ∧ q ≤ 10000 → validate_quantity q f = .ok q) ∧
    (q < 1 → validate_quantity q f = .error (f ++ " must be at least 1")) ∧
    (10000 < q → validate_quantity q f = .error (f ++ " cannot exceed 10,000")) ∧
    (1 ≤ q ∧ q ≤ 1000 → canConstructWithQuantity q) ∧
    (1000 < q → ¬ canConstructWithQuantity q) := by
  refine ⟨?_, ?_, ?_, ?_, ?_⟩
  · rintro ⟨h1, h2⟩
    rw [validate_quantity, if_neg (by omega), if_neg (by omega)]
  · intro h
    rw [validate_quantity, if_pos h]
  · intro h
    rw [validate_quantity, if_neg (by omega), if_pos h]
  · rintro ⟨h1, h2⟩
    have hup : ¬ ((1 : ℚ) < 0 ∨ ¬ twoDP 1) := by
      simp [twoDP]
    have h0q : (0 : ℚ) ≤ (q : ℚ) := by exact_mod_cast (by omega : (0 : ℤ) ≤ q)
    have htp : ¬ ((q : ℚ) < 0 ∨ ¬ twoDP (q : ℚ)) := by
      push_neg
      exact ⟨h0q, by simp [twoDP]⟩
    refine ⟨"p", "n", 1, (q : ℚ), ?_⟩
    rw [mkOrderItem, if_neg (by decide), if_neg (by decide), if_neg (by omega),
      if_neg (by omega), if_neg hup, if_neg htp, if_neg (by simp)]
    rfl
  · intro h
    rintro ⟨pid, pname, up, tp, hc⟩
    rw [mkOrderItem] at hc
    split_ifs at hc <;> first | exact Bool.noConfusion hc | omega

/-- Witness for claim C4 at quantity 5: accepted by `validate_quantity` and
usable in an order line item. -/
theorem validate_quantity_spec_witness :
    validate_quantity 5 "quantity" = .ok 5 ∧ canConstructWithQuantity 5 :=
  ⟨(validate_quantity_spec 5 "quantity").1 (by omega),
   (validate_quantity_spec 5 "quantity").2.2.2.1 (by omega)⟩

/-- Claim C5 fails on the code (`test_order_partition_key_auto_set` and the
validator's own docstring show the intent): an order supplying
`partition_key = "cust_999"` with `customer_id = "cust_456"` is accepted
with the mismatched key kept, because `set_partition_key` runs before
`customer_id` has been validated and so never sees it; and omitting
`partition_key` fails with `field required` instead of auto-deriving it. -/
theorem partition_key_not_derived :
    orderPartitionKey (some ("cust_999")) "cust_456" = .ok "cust_999" ∧
    "cust_999" ≠ "cust_456" ∧
    orderPartitionKey none "cust_456" = .error ("partitionKey: field required") :=
  ⟨rfl, by decide, rfl⟩

/-- Claim C6: `cancel_order` on an existing order fails — with an error
naming the order's current status — exactly when that status is `shipped`
or `delivered`; for every other status it succeeds and the resulting order
has status `cancelled`. -/
theorem cancel_order_spec (oid : String) (o : SvcOrder) (now : Nat) :
    ((o.status = .shipped ∨ o.status = .delivered) →
      cancel_order oid (some o) now =
        .error ("Failed to cancel order " ++ oid ++
          ": Cannot cancel order in status: " ++ o.status.value)) ∧
    (o.status ≠ .shipped → o.status ≠ .delivered →
      ∃ o', cancel_order oid (some o) now = .ok (some o') ∧
        o'.status = .cancelled) := by
  constructor
  · intro h
    simp only [cancel_order]
    rw [if_pos h]
  · intro h1 h2
    refine ⟨{ o with status := .cancelled, updated_at := some now }, ?_, rfl⟩
    simp only [cancel_order]
    rw [if_neg (by tauto)]

/-- Witness for claim C6: a pending order cancels successfully. -/
theorem cancel_order_spec_witness :
    ∃ o', cancel_order "ord_1" (some ⟨.pending, none⟩) 7 = .ok (some o') ∧
      o'.status = .cancelled :=
  (cancel_order_spec "ord_1" ⟨.pending, none⟩ 7).2 (by decide) (by decide)

/-- Claim C9: whenever the previous period's revenue is strictly positive
the growth rate is `(current - previous) / previous * 100` rounded to 2
decimals, and when the previous period's revenue is zero the result is
`None` — not an exception and not 0.  The previous period runs from
`2*start - end - 1` through `start - 1` (same length, ending the day
before). -/
theorem calculate_growth_rate_spec (revenue : Int → Int → ℚ) (s e : Int) :
    (0 < revenue (2*s - e - 1) (s - 1) →
      calculate_growth_rate revenue s e =
        some (round2 ((revenue s e - revenue (2*s - e - 1) (s - 1)) /
          revenue (2*s - e - 1) (s - 1) * 100))) ∧
    (revenue (2*s - e - 1) (s - 1) = 0 →
      calculate_growth_rate revenue s e = none) ∧
    (revenue (2*s - e - 1) (s - 1) = 0 →
      calculate_growth_rate revenue s e ≠ some 0) := by
  have hprev : s - 1 - (e - s + 1 - 1) = 2*s - e - 1 := by ring
  refine ⟨?_, ?_, ?_⟩ <;> simp only [calculate_growth_rate, hprev]
  · intro h
    rw [if_pos h]
  · intro h
    rw [if_neg (by rw [h]; exact lt_irrefl 0)]
  · intro h
    rw [if_neg (by rw [h]; exact lt_irrefl 0)]
    exact Option.noConfusion

/-- Witness for claim C9: current revenue 1000.00 against previous revenue
800.00 yields 25.0, and a zero previous period yields `None`. -/
theorem calculate_growth_rate_spec_witness :
    calculate_growth_rate demoRevenue 1 5 = some 25 ∧
    calculate_growth_rate (fun _ _ => 0) 1 5 = none := by
  constructor
  · rw [(calculate_growth_rate_spec demoRevenue 1 5).1 (by norm_num [demoRevenue])]
    norm_num [demoRevenue, round2, roundHalfEvenInt]
  · exact (calculate_growth_rate_spec (fun _ _ => 0) 1 5).2.1 rfl

/-- Claim C1 fails as stated for reassignment: an order constructed with
consistent totals accepts a reassignment of `tax_amount` from 0.00 to
100.00 — `validate_assignment` re-runs only the assigned field's own
validators — leaving the stored `total_amount` off the calculated total by
100, far beyond the 0.01 tolerance, with no rejection. -/
theorem order_totals_reassignment_cex :
    constructOrderTotals [50] 50 0 0 0 50 = .ok ⟨[50], 50, 0, 0, 0, 50⟩ ∧
    assignTotalsField ⟨[50], 50, 0, 0, 0, 50⟩ .tax_amount 100 =
      .ok ⟨[50], 50, 100, 0, 0, 50⟩ ∧
    1/100 < |(50 : ℚ) - (50 + 100 + 0 - 0)| := by
  refine ⟨?_, ?_, by norm_num⟩
  · rw [constructOrderTotals]
    rw [if_neg (by norm_num), if_neg (by norm_num [moneyOk, twoDP]),
      if_neg (by norm_num), if_neg (by norm_num [moneyOk, twoDP]),
      if_neg (by norm_num [moneyOk, twoDP]), if_neg (by norm_num [moneyOk, twoDP]),
      if_neg (by norm_num [moneyOk, twoDP]), if_neg (by norm_num)]
  · simp only [assignTotalsField]
    rw [if_neg (by norm_num [moneyOk, twoDP])]

/-- Claim C1 (amended): at construction time the totals gate holds — a
successfully constructed order satisfies both tolerance inequalities, and
(given fields that pass their per-field constraints) a subtotal off the
item sum by more than 0.01 is rejected with an error carrying both the
supplied and the computed value, as is a total off the calculated total by
more than 0.01.  On reassignment only the assigned field's own validator
runs, so reassigning `tax_amount`, `shipping_amount` or `discount_amount`
(or moving `subtotal` within its own tolerance) is not re-checked against
`total_amount`. -/
theorem order_totals_construction_gate (items : List ℚ) (s tax ship disc t : ℚ) :
    ((∃ o, constructOrderTotals items s tax ship disc t = .ok o) →
      |s - items.sum| ≤ 1/100 ∧ |t - (s + tax + ship - disc)| ≤ 1/100) ∧
    (1 ≤ items.length → items.length ≤ 100 → moneyOk s →
      1/100 < |s - items.sum| →
      constructOrderTotals items s tax ship disc t =
        .error (.subtotalMismatch s items.sum)) ∧
    (1 ≤ items.length → items.length ≤ 100 → moneyOk s → moneyOk tax →
      moneyOk ship → moneyOk disc → moneyOk t →
      |s - items.sum| ≤ 1/100 → 1/100 < |t - (s + tax + ship - disc)| →
      constructOrderTotals items s tax ship disc t =
        .error (.totalMismatch t (s + tax + ship - disc))) := by
  refine ⟨?_, ?_, ?_⟩
  · rintro ⟨o, h⟩
    rw [constructOrderTotals] at h
    split_ifs at h with h1 h2 h3 h4 h5 h6 h7 h8 <;> try exact Except.noConfusion h
    exact ⟨le_of_not_lt h3, le_of_not_lt h8⟩
  · intro hl1 hl2 hs hmis
    rw [constructOrderTotals, if_neg (by omega), if_neg (not_not_intro hs),
      if_pos hmis]
  · intro hl1 hl2 hs htax hship hdisc ht hsub hmis
    rw [constructOrderTotals, if_neg (by omega), if_neg (not_not_intro hs),
      if_neg (not_lt.mpr hsub), if_neg (not_not_intro htax),
      if_neg (not_not_intro hship), if_neg (not_not_intro hdisc),
      if_neg (not_not_intro ht), if_pos hmis]

/-- Witness for claim C1: one 50.00 line item with subtotal 50.00 but total
100.00 is rejected with the total-mismatch error carrying both values. -/
theorem order_totals_construction_gate_witness :
    constructOrderTotals [50] 50 0 0 0 100 =
      .error (.totalMismatch 100 (50 + 0 + 0 - 0)) :=
  (order_totals_construction_gate [50] 50 0 0 0 100).2.2
    (by norm_num) (by norm_num)
    (by norm_num [moneyOk, twoDP]) (by norm_num [moneyOk, twoDP])
    (by norm_num [moneyOk, twoDP]) (by norm_num [moneyOk, twoDP])
    (by norm_num [moneyOk, twoDP])
    (by norm_num) (by norm_num)

/-- Claim C7: sanitizing `"<script>alert(1)</script>Hello"` yields text
containing `Hello`, with no `<script` substring and no `<` character at
all (in particular no unescaped `<`). -/
theorem sanitize_text_script_example :
    List.IsInfix ("Hello").toList
      (sanitize_text ("<script>alert(1)</script>Hello").toList none) ∧
    ¬ List.IsInfix ("<script").toList
      (sanitize_text ("<script>alert(1)</script>Hello").toList none) ∧
    '<' ∉ sanitize_text ("<script>alert(1)</script>Hello").toList none := by
  have h : sanitize_text ("<script>alert(1)</script>Hello").toList none =
      ("Hello").toList := by decide
  rw [h]
  refine ⟨⟨[], [], by simp⟩, ?_, by decide⟩
  rintro ⟨u, v, heq⟩
  have hmem : '<' ∈ ("Hello").toList := by
    rw [← heq]
    simp
  exact absurd hmem (by decide)

lemma escapeChar_no_angle (c : Char) : ∀ x ∈ escapeChar c, x ≠ '<' ∧ x ≠ '>' := by
  intro x hx
  unfold escapeChar at hx
  split_ifs at hx with h1 h2 h3 h4 h5
  · simp only [List.mem_cons, List.not_mem_nil, or_false] at hx
    rcases hx with rfl | rfl | rfl | rfl | rfl <;> exact ⟨by decide, by decide⟩
  · simp only [List.mem_cons, List.not_mem_nil, or_false] at hx
    rcases hx with rfl | rfl | rfl | rfl <;> exact ⟨by decide, by decide⟩
  · simp only [List.mem_cons, List.not_mem_nil, or_false] at hx
    rcases hx with rfl | rfl | rfl | rfl <;> exact ⟨by decide, by decide⟩
  · simp only [List.mem_cons, List.not_mem_nil, or_false] at hx
    rcases hx with rfl | rfl | rfl | rfl | rfl | rfl <;> exact ⟨by decide, by decide⟩
  · simp only [List.mem_cons, List.not_mem_nil, or_false] at hx
    rcases hx with rfl | rfl | rfl | rfl | rfl | rfl <;> exact ⟨by decide, by decide⟩
  · simp only [List.mem_cons, List.not_mem_nil, or_false] at hx
    subst hx
    exact ⟨by simpa using h2, by simpa using h3⟩

lemma html_escape_no_angle : ∀ s : List Char, ∀ c ∈ html_escape s, c ≠ '<' ∧ c ≠ '>' := by
  intro s
  induction s with
  | nil => simp [html_escape]
  | cons a t ih =>
      intro c hc
      rw [html_escape] at hc
      rcases List.mem_append.mp hc with h | h
      · exact escapeChar_no_angle a c h
      · exact ih c h

lemma pyStrip_subset (s : List Char) : pyStrip s ⊆ s := by
  intro c hc
  unfold pyStrip at hc
  rw [List.mem_reverse] at hc
  have h1 := (List.dropWhile_sublist (l := (s.dropWhile pyIsSpace).reverse)
    (p := pyIsSpace)).subset hc
  rw [List.mem_reverse] at h1
  exact (List.dropWhile_sublist (l := s) (p := pyIsSpace)).subset h1

lemma truncateMax_subset (s : List Char) (ml : Option Nat) : truncateMax s ml ⊆ s := by
  intro c hc
  cases ml with
  | none => exact hc
  | some m =>
      simp only [truncateMax] at hc
      split_ifs at hc with h
      · exact List.take_subset m s hc
      · exact hc

/-- Claim C10: for every input string and every maximum length, the string
returned by `sanitize_text` contains no literal `<` and no literal `>`:
escaping happens after tag removal, and trimming and truncation only drop
characters. -/
theorem sanitize_text_no_angle (s : List Char) (ml : Option Nat) :
    '<' ∉ sanitize_text s ml ∧ '>' ∉ sanitize_text s ml := by
  have key : ∀ c : Char, c ∈ sanitize_text s ml → c ≠ '<' ∧ c ≠ '>' := by
    intro c hc
    unfold sanitize_text at hc
    exact html_escape_no_angle _ c
      (pyStrip_subset _ (truncateMax_subset _ _ hc))
  exact ⟨fun h => (key '<' h).1 rfl, fun h => (key '>' h).2 rfl⟩

lemma metricsByDate_acc (d : Nat) (rows : List DailyOrderMetrics) :
    ∀ acc : Option DailyOrderMetrics, (∀ x ∈ rows, x.date ≠ d) →
      rows.foldl (fun a m => if m.date = d then some m else a) acc = acc := by
  induction rows with
  | nil => intro acc _; rfl
  | cons r t ih =>
      intro acc h
      rw [List.foldl_cons, if_neg (h r (by simp))]
      exact ih acc (fun x hx => h x (by simp [hx]))

lemma metricsByDate_eq_of_mem (m : DailyOrderMetrics) :
    ∀ (rows : List DailyOrderMetrics) (acc : Option DailyOrderMetrics),
      (rows.map DailyOrderMetrics.date).Nodup → m ∈ rows →
      rows.foldl (fun a x => if x.date = m.date then some x else a) acc = some m := by
  intro rows
  induction rows with
  | nil => simp
  | cons r t ih =>
      intro acc hnd hm
      have hnd' : r.date ∉ t.map DailyOrderMetrics.date ∧
          (t.map DailyOrderMetrics.date).Nodup := by
        simpa [List.nodup_cons] using hnd
      rw [List.foldl_cons]
      rcases List.mem_cons.mp hm with rfl | hmt
      · rw [if_pos rfl]
        apply metricsByDate_acc
        intro x hx hEq
        exact hnd'.1 (List.mem_map.mpr ⟨x, hx, hEq⟩)
      · exact ih _ hnd'.2 hmt

lemma metricsByDate_date (rows : List DailyOrderMetrics) (d : Nat) :
    ∀ (acc : Option DailyOrderMetrics), (∀ x, acc = some x → x.date = d) →
      ∀ m, rows.foldl (fun a x => if x.date = d then some x else a) acc = some m →
        m.date = d := by
  induction rows with
  | nil =>
      intro acc hacc m h
      exact hacc m h
  | cons r t ih =>
      intro acc hacc m h
      rw [List.foldl_cons] at h
      refine ih _ ?_ m h
      intro x hx
      by_cases hr : r.date = d
      · rw [if_pos hr] at hx
        cases hx
        exact hr
      · rw [if_neg hr] at hx
        exact hacc x hx

lemma dayRecord_date (rows : List DailyOrderMetrics) (d : Nat) :
    (dayRecord rows d).date = d := by
  unfold dayRecord
  cases h : metricsByDate rows d with
  | none => rfl
  | some m =>
      exact metricsByDate_date rows d none (by intro x hx; cases hx) m h

lemma dayRecord_of_mem (rows : List DailyOrderMetrics) (m : DailyOrderMetrics)
    (hnd : (rows.map DailyOrderMetrics.date).Nodup) (hm : m ∈ rows) :
    dayRecord rows m.date = m := by
  unfold dayRecord metricsByDate
  rw [metricsByDate_eq_of_mem m rows none hnd hm]

lemma dayRecord_of_absent (rows : List DailyOrderMetrics) (d : Nat)
    (h : ∀ m ∈ rows, m.date ≠ d) : dayRecord rows d = zeroMetric d := by
  unfold dayRecord metricsByDate
  rw [metricsByDate_acc d rows none h]

lemma fill_missing_days_length (rows : List DailyOrderMetrics) :
    ∀ (fuel current endD : Nat), endD + 1 - current = fuel →
      (fill_missing_days rows current endD).length = fuel := by
  intro fuel
  induction fuel with
  | zero =>
      intro current endD h
      rw [fill_missing_days, if_neg (by omega)]
      rfl
  | succ f ih =>
      intro current endD h
      rw [fill_missing_days, if_pos (by omega), List.length_cons,
        ih (current + 1) endD (by omega)]

lemma fill_missing_days_get? (rows : List DailyOrderMetrics) :
    ∀ (fuel current endD : Nat), endD + 1 - current = fuel →
      ∀ i, i < fuel →
        (fill_missing_days rows current endD).get? i =
          some (dayRecord rows (current + i)) := by
  intro fuel
  induction fuel with
  | zero => omega
  | succ f ih =>
      intro current endD h i hi
      rw [fill_missing_days, if_pos (by omega)]
      cases i with
      | zero => rfl
      | succ j =>
          have hj := ih (current + 1) endD (by omega) j (by omega)
          have harith : current + 1 + j = current + (j + 1) := by omega
          rw [harith] at hj
          exact hj

/-- Claim C8: for `start ≤ end` and per-day rows with pairwise distinct
dates, the gap-filled series has exactly `end - start + 1` records; the
record at index `i` is for day `start + i` (so days appear in strictly
ascending order, one per calendar day); a day present in the rows keeps its
row verbatim at its position, and a day absent from the rows gets the
zero record (`order_count` 0, revenue 0.00, average 0.00, currency USD). -/
theorem fill_missing_days_spec (rows : List DailyOrderMetrics) (startD endD : Nat)
    (hle : startD ≤ endD) (hnd : (rows.map DailyOrderMetrics.date).Nodup) :
    (fill_missing_days rows startD endD).length = endD - startD + 1 ∧
    (∀ i, i ≤ endD - startD →
      ((fill_missing_days rows startD endD).get? i).map DailyOrderMetrics.date =
        some (startD + i)) ∧
    (∀ m ∈ rows, startD ≤ m.date → m.date ≤ endD →
      (fill_missing_days rows startD endD).get? (m.date - startD) = some m) ∧
    (∀ i, i ≤ endD - startD → (∀ m ∈ rows, m.date ≠ startD + i) →
      (fill_missing_days rows startD endD).get? i =
        some (zeroMetric (startD + i))) := by
  refine ⟨?_, ?_, ?_, ?_⟩
  · rw [fill_missing_days_length rows (endD + 1 - startD) startD endD rfl]
    omega
  · intro i hi
    rw [fill_missing_days_get? rows (endD + 1 - startD) startD endD rfl i (by omega)]
    simp [dayRecord_date]
  · intro m hm h1 h2
    rw [fill_missing_days_get? rows (endD + 1 - startD) startD endD rfl
      (m.date - startD) (by omega)]
    have harith : startD + (m.date - startD) = m.date := by omega
    rw [harith, dayRecord_of_mem rows m hnd hm]
  · intro i hi hno
    rw [fill_missing_days_get? rows (endD + 1 - startD) startD endD rfl i (by omega)]
    rw [dayRecord_of_absent rows (startD + i) hno]

/-- Witness for claim C8: a 5-day range with data only on days 1 and 3
yields 5 records and a synthesized zero record on day 2. -/
theorem fill_missing_days_spec_witness :
    (fill_missing_days demoRows 1 5).length = 5 ∧
    (fill_missing_days demoRows 1 5).get? 1 = some (zeroMetric 2) := by
  have h := fill_missing_days_spec demoRows 1 5 (by decide) (by decide)
  exact ⟨h.1, h.2.2.2 1 (by omega) (by decide)⟩

end OrderService
